import Mathlib

/-!
Verification development for a small Python repository consisting of
`backend/db_cli.py` (an interactive database CLI built on a
connect → read-eval loop → disconnect lifecycle) and
`backend/src/services/embeddings.py` (a batch text-embedding pipeline).

The code is shallowly embedded: Python methods become Lean functions,
exceptions become `Except`, the database driver and the remote embedding
provider become explicit parameters (function-valued records), and the
interactive input stream becomes a finite list of input events.
-/

/-! ## Embedding pipeline (`backend/src/services/embeddings.py`) -/

namespace Embeddings

/-- A Python exception value (its message). -/
inductive PyErr where
  | err (msg : String)
deriving DecidableEq

/-- An embedding vector: `embedding['embedding']`, a list of floats. -/
abbrev Vec := List Float

/-- The slicing loop of `generate_embeddings_batch`:
`for i in range(0, len(texts), batch_size): batch = texts[i:i + batch_size]`.
For `batch_size ≥ 1` the slices are `texts[0:bs]`, `texts[bs:2bs]`, …
(Python raises `ValueError` on step 0; `batch_size = 0` is out of scope.) -/
def batches (bs : Nat) : List String → List (List String)
  | [] => []
  | t :: ts => (t :: ts).take bs :: batches bs (ts.drop (bs - 1))
termination_by l => l.length
decreasing_by
  simp only [List.length_drop, List.length_cons]
  omega

/-- One batch unit: the executor lambda
`[genai.embed_content(model=..., content=text)['embedding'] for text in b]`.
The provider call for each text is `embed`; the list comprehension issues
the calls left to right and aborts at the first raised exception.
Returns the comprehension's outcome together with the texts actually sent
to the provider, in call order. -/
def embedBatch (embed : String → Except PyErr Vec) :
    List String → Except PyErr (List Vec) × List String
  | [] => (Except.ok [], [])
  | t :: ts =>
      match embed t with
      | Except.error e => (Except.error e, [t])
      | Except.ok v =>
          match embedBatch embed ts with
          | (Except.error e, cs) => (Except.error e, t :: cs)
          | (Except.ok vs, cs) => (Except.ok (v :: vs), t :: cs)

/-- Observable result of one `generate_embeddings_batch` call:
the returned value (or the propagated exception), the provider calls issued
(in order), and the per-batch progress log lines
`(i // batch_size + 1, len(batch_embeddings))`. -/
structure BatchRun where
  result : Except PyErr (List Vec)
  calls : List String
  progress : List (Nat × Nat)

/-- The batch loop body of `generate_embeddings_batch`: process the batch
list in order, extend `all_embeddings` with each batch's vectors, log one
progress line after each completed batch (`idx` is the 1-based batch index),
and on the first exception stop, log, and re-raise (the surrounding
`try/except` logs and re-raises, so it is the identity on the outcome). -/
def runBatches (embed : String → Except PyErr Vec) :
    Nat → List (List String) → BatchRun
  | _, [] => { result := Except.ok [], calls := [], progress := [] }
  | idx, b :: rest =>
      match embedBatch embed b with
      | (Except.error e, cs) =>
          { result := Except.error e, calls := cs, progress := [] }
      | (Except.ok vs, cs) =>
          let r := runBatches embed (idx + 1) rest
          { result := r.result.map (vs ++ ·),
            calls := cs ++ r.calls,
            progress := (idx, vs.length) :: r.progress }

/-- Model of `EmbeddingService.generate_embeddings_batch(texts, batch_size)`:
slice `texts` into contiguous batches of at most `batch_size`, run each
batch as one offloaded unit issuing one provider call per text, collect
all embeddings in order. -/
def generate_embeddings_batch (embed : String → Except PyErr Vec)
    (texts : List String) (batch_size : Nat) : BatchRun :=
  runBatches embed 1 (batches batch_size texts)

/-- The progress log produced by a fully successful run over this batch
list: one entry per batch, 1-based index, reporting the batch's size. -/
def expectedProgress (idx : Nat) : List (List String) → List (Nat × Nat)
  | [] => []
  | b :: rest => (idx, b.length) :: expectedProgress (idx + 1) rest

/-- A fixed 768-element vector, the payload of the successful stub. -/
def vec768 : Vec :=
  List.replicate 768 (1.0 : Float)

/-- A provider stub that always succeeds with a fixed 768-element vector,
used to exercise the batch pipeline on concrete inputs. -/
def embedStub : String → Except PyErr Vec :=
  fun _ => Except.ok vec768

/-- A provider stub whose calls always raise, used to exercise the
all-or-nothing failure behaviour on concrete inputs. -/
def embedFailStub : String → Except PyErr Vec :=
  fun _ => Except.error (PyErr.err "quota exceeded")

/-- Construction of `EmbeddingService` (`__init__`).
Modelled from the spec: `Settings` lives in `src/config.py`, which is not
present under the repository sources here, and the provider `configure`
call is external; per the spec, construction "fails hard … if the
credential is missing or invalid", so the constructor is modelled as a
fallible map from the optional credential (and a provider-side validity
test) to either a fatal error or a constructed service. -/
inductive InitError where
  | missingCredential
  | invalidCredential
deriving DecidableEq

/-- The constructed embedding service: after a successful `__init__` the
only state is the fixed embedding dimension (`self.embedding_dim = 768`). -/
structure EmbeddingService where
  embedding_dim : Nat
deriving DecidableEq

/-- Modelled from the spec: `EmbeddingService.__init__`, consuming
`settings.gemini_api_key` (missing from the sources here along with all of
`src/config.py`); absence or invalidity of the credential is a fatal,
unrecoverable construction failure, success yields the service with its
fixed 768 embedding dimension. -/
def embeddingServiceInit (apiKey : Option String)
    (credentialValid : String → Bool) : Except InitError EmbeddingService :=
  match apiKey with
  | none => Except.error InitError.missingCredential
  | some k =>
      if credentialValid k then Except.ok { embedding_dim := 768 }
      else Except.error InitError.invalidCredential

end Embeddings

/-! ## Session manager (`backend/db_cli.py`) -/

namespace DbCli

open Embeddings (PyErr)

/-- A database connection handle (`asyncpg` connection object). The code
keeps the object in `self.conn` even after closing it, so the handle
carries its open/closed state. -/
structure Handle where
  isOpen : Bool
deriving DecidableEq

/-- One result row, `dict(row)`: a mapping from column name to value. -/
abbrev Row := List (String × String)

/-- The environment of one `DatabaseCLI` run: the outcome of
`asyncpg.connect` and the driver's behaviour for `fetch`/`execute` on a
given handle and query text (success payload or raised exception). -/
structure Driver where
  connectResult : Except PyErr Handle
  fetch : Handle → String → Except PyErr (List Row)
  execute : Handle → String → Except PyErr String

/-- State of a `DatabaseCLI` instance: `self.db_url` (the settings value, which
may be unset) and `self.conn` (initially `None`). -/
structure CLIState where
  db_url : Option String
  conn : Option Handle
deriving DecidableEq

/-- A fresh `DatabaseCLI()`: `self.conn = None`. -/
def initState (url : Option String) : CLIState :=
  { db_url := url, conn := none }

/-- Model of `DatabaseCLI.connect`: report failure if `self.db_url` is falsy
(`None` or empty); otherwise attempt `asyncpg.connect`, storing the handle
and returning `True` on success, catching any exception and returning
`False` on failure. -/
def connect (drv : Driver) (s : CLIState) : Bool × CLIState :=
  match s.db_url with
  | none => (false, s)
  | some u =>
      if u = "" then (false, s)
      else
        match drv.connectResult with
        | Except.ok h => (true, { s with conn := some h })
        | Except.error _ => (false, s)

/-- Model of `DatabaseCLI.disconnect`: `if self.conn: await self.conn.close()`.
Closing marks the handle closed (closing an already-closed `asyncpg`
connection returns without error); the attribute `self.conn` is NOT reset
to `None`, so the (closed) handle stays stored. -/
def disconnect (s : CLIState) : CLIState :=
  match s.conn with
  | none => s
  | some h => { s with conn := some { h with isOpen := false } }

/-- A state with no live connection: `self.conn` is `None` or closed. The
spec's `Disconnected` state (no live handle) is this predicate. -/
def disconnectedState (s : CLIState) : Bool :=
  match s.conn with
  | none => true
  | some h => !h.isOpen

/-- Python's `str.strip()` (no arguments): drop leading and trailing
whitespace. Modelled over the string's character list so that it is fully
computable down to the kernel. -/
def pyStrip (s : String) : String :=
  ⟨((s.data.dropWhile Char.isWhitespace).reverse.dropWhile
      Char.isWhitespace).reverse⟩

/-- Python's `str.upper()` (ASCII-faithful). -/
def pyUpper (s : String) : String :=
  ⟨s.data.map Char.toUpper⟩

/-- Python's `str.lower()` (ASCII-faithful). -/
def pyLower (s : String) : String :=
  ⟨s.data.map Char.toLower⟩

/-- Python's `s.startswith(p)`, over the character lists. -/
def pyStartsWith (s p : String) : Bool :=
  p.data.isPrefixOf s.data

/-- The dispatch test of `execute_query`:
`query.strip().upper().startswith("SELECT")`. -/
def isSelectQuery (q : String) : Bool :=
  pyStartsWith (pyUpper (pyStrip q)) "SELECT"

/-- Observable outcome of one `execute_query` call. -/
inductive QueryOutput where
  | notConnected
  | readOk (rows : List Row)
  | writeOk (status : String)
  | queryFailed (e : PyErr)
deriving DecidableEq

/-- The `try/except Exception` wrapper inside `execute_query`: a raised
exception is caught and reported as a per-query failure. -/
def pyCatchQuery (x : Except PyErr QueryOutput) : Except PyErr QueryOutput :=
  match x with
  | Except.ok o => Except.ok o
  | Except.error e => Except.ok (QueryOutput.queryFailed e)

/-- Model of `DatabaseCLI.execute_query`: report "Not connected" when `self.conn`
is `None`; otherwise route on the SELECT-prefix test to `conn.fetch`
(read path, eager fetch of all rows) or `conn.execute` (write path,
driver status reported verbatim), catching any exception from either
path. The state is not modified. -/
def execute_query (drv : Driver) (s : CLIState) (q : String) :
    Except PyErr QueryOutput :=
  match s.conn with
  | none => Except.ok QueryOutput.notConnected
  | some h =>
      pyCatchQuery
        (if isSelectQuery q then
          (drv.fetch h q).map QueryOutput.readOk
        else
          (drv.execute h q).map QueryOutput.writeOk)

/-- The fixed introspection query issued by the `.tables` meta-command. -/
def tablesQuery : String :=
  "SELECT table_name FROM information_schema.tables WHERE table_schema='public'"

/-- One interaction of the read-eval loop, as seen at the `input()` call:
a line of input, a `KeyboardInterrupt`, or an exception raised by
`input()` itself (e.g. `EOFError`), both of which are caught by the loop
body's handlers; `fatal` stands for an exception that is not an
`Exception` (so neither handler catches it) raised in the loop body. -/
inductive InEvent where
  | line (s : String)
  | interrupt
  | inputErr
  | fatal
deriving DecidableEq

/-- How one `run_interactive` call ended. `hung` marks an event script
that was exhausted before the loop broke: the real loop would block on
(or endlessly retry) `input()`, i.e. the invocation does not terminate. -/
inductive LoopOutcome where
  | connectFailed
  | metaExit
  | interrupted
  | fatalErr
  | hung
deriving DecidableEq

/-- The `while True` body of `run_interactive`, driven by the event
script. A line is stripped; empty input continues; `.exit`/`.quit`
(lowercased) break; `.tables` issues the fixed introspection fetch (an
exception from it is caught by `except Exception`) and continues; any
other input goes to `execute_query`, which never raises; a
`KeyboardInterrupt` breaks; an `Exception` from `input()` is caught and
the loop continues; a non-`Exception` error propagates out of the loop. -/
def loop (drv : Driver) (s : CLIState) : List InEvent → LoopOutcome
  | [] => LoopOutcome.hung
  | ev :: rest =>
      match ev with
      | InEvent.interrupt => LoopOutcome.interrupted
      | InEvent.inputErr => loop drv s rest
      | InEvent.fatal => LoopOutcome.fatalErr
      | InEvent.line raw =>
          let q := pyStrip raw
          if q = "" then loop drv s rest
          else if pyLower q = ".exit" || pyLower q = ".quit" then
            LoopOutcome.metaExit
          else if pyLower q = ".tables" then
            match s.conn with
            | some h =>
                match drv.fetch h tablesQuery with
                | _ => loop drv s rest
            | none => loop drv s rest
          else
            match execute_query drv s q with
            | _ => loop drv s rest

/-- Model of `DatabaseCLI.run_interactive`: connect (returning early on failure,
before the `try/finally`), run the read-eval loop, and on every loop exit
run `disconnect` exactly once via `finally` (also when a fatal error
propagates). Returns the outcome, the final state, and the number of
`disconnect` calls performed. A `hung` outcome marks a non-terminating
invocation: the `finally` block is never reached. -/
def run_interactive (drv : Driver) (events : List InEvent) (s : CLIState) :
    LoopOutcome × CLIState × Nat :=
  match connect drv s with
  | (false, s1) => (LoopOutcome.connectFailed, s1, 0)
  | (true, s1) =>
      match loop drv s1 events with
      | LoopOutcome.hung => (LoopOutcome.hung, s1, 0)
      | out => (out, disconnect s1, 1)

/-- Parsed command-line arguments: an optional positional query and the
interactive-mode flag. -/
structure Args where
  query : Option String
  interactive : Bool
deriving DecidableEq

/-- Python truthiness of the optional query argument: `None` and the
empty string are both falsy in `not args.query`. -/
def pyTruthy (q : Option String) : Bool :=
  match q with
  | none => false
  | some s => !(s == "")

/-- An invocation is one-shot when the interactive flag is not set and a
truthy (non-`None`, non-empty) query is given: exactly when
`if args.interactive or not args.query:` takes the `else` branch. -/
def oneShot (args : Args) : Bool :=
  !args.interactive && pyTruthy args.query

/-- Result of one whole process run of `main`. -/
structure MainResult where
  exitCode : Nat
  state : CLIState
  outcome : Option LoopOutcome

/-- Model of `main` (plus `asyncio.run(main())` at module level): build a fresh
`DatabaseCLI`, then either run interactively (when the flag is set or no
query was given) or run one-shot: connect, and only if that succeeds,
execute the query and disconnect. `main` never calls `sys.exit`, so the
process exits 0 whenever `main` returns; the only nonzero exit is the
interpreter's exit 1 when a fatal error propagates out of `asyncio.run`.
`not args.query` is true both for an absent query and for the empty
string, so an empty-string query runs interactive mode. In the one-shot
branch the query is a truthy `some`, so `getD` returns exactly it.
(Signals arriving during a one-shot run are out of scope.) -/
def mainRun (args : Args) (url : Option String) (drv : Driver)
    (events : List InEvent) : MainResult :=
  let cli := initState url
  if args.interactive || !pyTruthy args.query then
    let (out, s1, _) := run_interactive drv events cli
    { exitCode := if out = LoopOutcome.fatalErr then 1 else 0,
      state := s1, outcome := some out }
  else
    match connect drv cli with
    | (false, s1) => { exitCode := 0, state := s1, outcome := none }
    | (true, s1) =>
        match execute_query drv s1 (args.query.getD "") with
        | _ => { exitCode := 0, state := disconnect s1, outcome := none }

/-- A driver stub for a healthy database: connecting yields an open
handle, reads return one row, writes report a fixed status tag. -/
def drvOk : Driver :=
  { connectResult := Except.ok { isOpen := true },
    fetch := fun _ _ => Except.ok [[("col", "1")]],
    execute := fun _ _ => Except.ok "INSERT 0 1" }

/-- A driver stub for an unreachable database: every operation raises. -/
def drvDown : Driver :=
  { connectResult := Except.error (PyErr.err "connection refused"),
    fetch := fun _ _ => Except.error (PyErr.err "connection is closed"),
    execute := fun _ _ => Except.error (PyErr.err "connection is closed") }

/-- A concrete connected-session state: a connection string is configured
and an open handle is stored. -/
def connectedState : CLIState :=
  { db_url := some "postgres://u", conn := some { isOpen := true } }

end DbCli


/-! ## Lemmas about the embedding pipeline -/

namespace Embeddings

theorem batches_flatten (bs : Nat) (hbs : 1 ≤ bs) (l : List String) :
    (batches bs l).flatten = l := by
  induction l using batches.induct bs with
  | case1 => simp [batches]
  | case2 t ts ih =>
      rw [batches]
      simp only [List.flatten_cons]
      rw [ih]
      obtain ⟨k, rfl⟩ : ∃ k, bs = k + 1 := ⟨bs - 1, by omega⟩
      simp only [List.take_succ_cons, Nat.add_sub_cancel, List.cons_append,
        List.cons.injEq, true_and]
      exact List.take_append_drop k ts

theorem batches_length_le (bs : Nat) (l : List String) :
    ∀ b ∈ batches bs l, b.length ≤ bs := by
  induction l using batches.induct bs with
  | case1 => simp [batches]
  | case2 t ts ih =>
      intro b hb
      rw [batches] at hb
      rcases List.mem_cons.mp hb with rfl | hb'
      · simp [List.length_take_le]
      · exact ih b hb'

theorem embedBatch_ok (embed : String → Except PyErr Vec) (b : List String) :
    ∀ vs : List Vec, (embedBatch embed b).1 = Except.ok vs →
      List.Forall₂ (fun t v => embed t = Except.ok v) b vs
        ∧ (embedBatch embed b).2 = b := by
  induction b with
  | nil =>
      intro vs h
      simp only [embedBatch, Except.ok.injEq] at h
      subst h
      exact ⟨List.Forall₂.nil, rfl⟩
  | cons t ts ih =>
      intro vs h
      simp only [embedBatch] at h ⊢
      cases he : embed t with
      | error e => rw [he] at h; simp at h
      | ok v =>
          rw [he] at h
          dsimp only at h ⊢
          rcases hr : embedBatch embed ts with ⟨r, cs⟩
          rw [hr] at h
          cases r with
          | error e => simp at h
          | ok vs' =>
              dsimp only at h ⊢
              simp only [Except.ok.injEq] at h
              subst h
              obtain ⟨h1, h2⟩ := ih vs' (by rw [hr])
              rw [hr] at h2
              simp only at h2
              exact ⟨List.Forall₂.cons he h1, by simp [h2]⟩

theorem embedBatch_calls (embed : String → Except PyErr Vec) (b : List String) :
    ∃ r, (embedBatch embed b).2 ++ r = b := by
  induction b with
  | nil => exact ⟨[], rfl⟩
  | cons t ts ih =>
      simp only [embedBatch]
      cases he : embed t with
      | error e => exact ⟨ts, rfl⟩
      | ok v =>
          dsimp only
          rcases hr : embedBatch embed ts with ⟨r, cs⟩
          obtain ⟨rest, hrest⟩ := ih
          rw [hr] at hrest
          simp only at hrest
          cases r with
          | error e => exact ⟨rest, by simp [hrest]⟩
          | ok vs => exact ⟨rest, by simp [hrest]⟩

theorem runBatches_ok (embed : String → Except PyErr Vec) (bl : List (List String)) :
    ∀ (idx : Nat) (es : List Vec),
      (runBatches embed idx bl).result = Except.ok es →
      List.Forall₂ (fun t v => embed t = Except.ok v) bl.flatten es
        ∧ (runBatches embed idx bl).calls = bl.flatten
        ∧ (runBatches embed idx bl).progress = expectedProgress idx bl := by
  induction bl with
  | nil =>
      intro idx es h
      simp only [runBatches, Except.ok.injEq] at h
      subst h
      exact ⟨by simp, rfl, rfl⟩
  | cons b rest ih =>
      intro idx es h
      simp only [runBatches] at h ⊢
      rcases hb : embedBatch embed b with ⟨rb, cs⟩
      rw [hb] at h
      cases rb with
      | error e => simp at h
      | ok vs =>
          dsimp only at h ⊢
          cases hres : (runBatches embed (idx + 1) rest).result with
          | error e => rw [hres] at h; simp [Except.map] at h
          | ok es' =>
              rw [hres] at h
              simp only [Except.map, Except.ok.injEq] at h
              subst h
              obtain ⟨f2, hcalls, hprog⟩ := ih (idx + 1) es' hres
              obtain ⟨fb, hcsb⟩ := embedBatch_ok embed b vs (by rw [hb])
              rw [hb] at hcsb
              simp only at hcsb
              refine ⟨?_, ?_, ?_⟩
              · simpa using List.rel_append fb f2
              · simp [hcsb, hcalls]
              · simp [expectedProgress, hprog, fb.length_eq]

theorem runBatches_calls (embed : String → Except PyErr Vec) (bl : List (List String)) :
    ∀ idx : Nat, ∃ r, (runBatches embed idx bl).calls ++ r = bl.flatten := by
  induction bl with
  | nil => intro idx; exact ⟨[], rfl⟩
  | cons b rest ih =>
      intro idx
      simp only [runBatches]
      rcases hb : embedBatch embed b with ⟨rb, cs⟩
      obtain ⟨rb2, hrb2⟩ := embedBatch_calls embed b
      rw [hb] at hrb2
      simp only at hrb2
      cases rb with
      | error e =>
          refine ⟨rb2 ++ rest.flatten, ?_⟩
          dsimp only
          rw [List.flatten_cons, ← hrb2, List.append_assoc]
      | ok vs =>
          obtain ⟨_, hcsb⟩ := embedBatch_ok embed b vs (by rw [hb])
          rw [hb] at hcsb
          simp only at hcsb
          subst hcsb
          obtain ⟨r2, hr2⟩ := ih (idx + 1)
          refine ⟨r2, ?_⟩
          dsimp only
          rw [List.flatten_cons, List.append_assoc, hr2]

theorem forall₂_mem_left {α β : Type} {R : α → β → Prop} :
    ∀ {as : List α} {bs : List β}, List.Forall₂ R as bs →
      ∀ a ∈ as, ∃ b ∈ bs, R a b := by
  intro as bs h
  induction h with
  | nil => intro a ha; simp at ha
  | cons hR _ ih =>
      intro a ha
      rcases List.mem_cons.mp ha with rfl | ha'
      · exact ⟨_, List.mem_cons_self _ _, hR⟩
      · obtain ⟨b, hb, hRb⟩ := ih a ha'
        exact ⟨b, List.mem_cons_of_mem _ hb, hRb⟩

theorem forall₂_mem_right {α β : Type} {R : α → β → Prop} :
    ∀ {as : List α} {bs : List β}, List.Forall₂ R as bs →
      ∀ b ∈ bs, ∃ a ∈ as, R a b := by
  intro as bs h
  induction h with
  | nil => intro b hb; simp at hb
  | cons hR _ ih =>
      intro b hb
      rcases List.mem_cons.mp hb with rfl | hb'
      · exact ⟨_, List.mem_cons_self _ _, hR⟩
      · obtain ⟨a, ha, hRa⟩ := ih b hb'
        exact ⟨a, List.mem_cons_of_mem _ ha, hRa⟩

end Embeddings

/-! ## Claim theorems: embedding pipeline -/

namespace Embeddings

/-- C1: for every `generate_embeddings_batch(texts, batch_size)` call with
`batch_size ≥ 1` that succeeds, the input is partitioned into contiguous
batches of at most `batch_size` elements processed strictly in input order
(the batches concatenate back to the input, the provider is called once
per input text in input order, and one progress signal per batch unit is
emitted in order); the output has exactly as many vectors as there are
input texts, the i-th output is the embedding the provider returned for
the i-th input, and — the dimensionality being a property of the
configured model — when the provider only returns 768-element vectors,
every output vector has exactly 768 elements. -/
theorem generate_embeddings_batch_correct
    (embed : String → Except PyErr Vec) (texts : List String) (bs : Nat)
    (es : List Vec) (hbs : 1 ≤ bs)
    (hok : (generate_embeddings_batch embed texts bs).result = Except.ok es) :
    (batches bs texts).flatten = texts
    ∧ (∀ b ∈ batches bs texts, b.length ≤ bs)
    ∧ List.Forall₂ (fun t v => embed t = Except.ok v) texts es
    ∧ es.length = texts.length
    ∧ ((∀ t v, embed t = Except.ok v → v.length = 768) →
        ∀ v ∈ es, v.length = 768)
    ∧ (generate_embeddings_batch embed texts bs).calls = texts
    ∧ (generate_embeddings_batch embed texts bs).progress
        = expectedProgress 1 (batches bs texts) := by
  obtain ⟨f, hcalls, hprog⟩ := runBatches_ok embed (batches bs texts) 1 es hok
  rw [batches_flatten bs hbs] at f hcalls
  refine ⟨batches_flatten bs hbs texts, batches_length_le bs texts, f,
    f.length_eq.symm, ?_, hcalls, hprog⟩
  intro hdim v hv
  obtain ⟨t, -, hts⟩ := forall₂_mem_right f v hv
  exact hdim t v hts

/-- Witness for C1: the spec's scenario, three texts with batch size 2:
two batch units of sizes 2 and 1 are issued and three vectors come back
in input order. -/
theorem generate_embeddings_batch_correct_witness :
    1 ≤ 2
    ∧ batches 2 ["a", "b", "c"] = [["a", "b"], ["c"]]
    ∧ expectedProgress 1 [["a", "b"], ["c"]] = [(1, 2), (2, 1)]
    ∧ (generate_embeddings_batch embedStub ["a", "b", "c"] 2).result
        = Except.ok [vec768, vec768, vec768]
    ∧ (generate_embeddings_batch embedStub ["a", "b", "c"] 2).calls
        = ["a", "b", "c"]
    ∧ (generate_embeddings_batch embedStub ["a", "b", "c"] 2).progress
        = expectedProgress 1 (batches 2 ["a", "b", "c"]) := by
  have hok : (generate_embeddings_batch embedStub ["a", "b", "c"] 2).result
      = Except.ok [vec768, vec768, vec768] := by
    simp [generate_embeddings_batch, batches, runBatches, embedBatch, embedStub,
      Except.map]
  have h := generate_embeddings_batch_correct embedStub ["a", "b", "c"] 2 _
    (by norm_num) hok
  exact ⟨by norm_num, by simp [batches], by simp [expectedProgress], hok,
    h.2.2.2.2.2.1, h.2.2.2.2.2.2⟩

/-- C5: if any provider call within any batch fails, the whole
`generate_embeddings_batch` call fails: its result is the propagated
exception, the caller receives no sequence of vectors (no partial
result), and the provider calls issued before the failure are an initial
segment of the input texts (each text is called at most once, in input
order — no per-item retry). -/
theorem generate_embeddings_batch_all_or_nothing
    (embed : String → Except PyErr Vec) (texts : List String) (bs : Nat)
    (t : String) (hbs : 1 ≤ bs) (ht : t ∈ texts)
    (hfail : ∀ v, embed t ≠ Except.ok v) :
    (∃ e, (generate_embeddings_batch embed texts bs).result = Except.error e)
    ∧ (∃ r, (generate_embeddings_batch embed texts bs).calls ++ r = texts) := by
  constructor
  · cases hres : (generate_embeddings_batch embed texts bs).result with
    | error e => exact ⟨e, rfl⟩
    | ok es =>
        obtain ⟨f, -, -⟩ := runBatches_ok embed (batches bs texts) 1 es hres
        rw [batches_flatten bs hbs] at f
        obtain ⟨v, -, hv⟩ := forall₂_mem_left f t ht
        exact absurd hv (hfail v)
  · obtain ⟨r, hr⟩ := runBatches_calls embed (batches bs texts) 1
    rw [batches_flatten bs hbs] at hr
    exact ⟨r, hr⟩

/-- Witness for C5: a provider whose calls raise makes the whole batch
call fail on a concrete input. -/
theorem generate_embeddings_batch_all_or_nothing_witness :
    1 ≤ 1
    ∧ "a" ∈ (["a"] : List String)
    ∧ (∀ v, embedFailStub "a" ≠ Except.ok v)
    ∧ ((∃ e, (generate_embeddings_batch embedFailStub ["a"] 1).result
          = Except.error e)
      ∧ (∃ r, (generate_embeddings_batch embedFailStub ["a"] 1).calls ++ r
          = ["a"])) := by
  refine ⟨le_refl 1, by simp, fun v h => by simp [embedFailStub] at h, ?_⟩
  exact generate_embeddings_batch_all_or_nothing embedFailStub ["a"] 1 "a"
    (le_refl 1) (by simp) (fun v h => by simp [embedFailStub] at h)

/-- C10: on the empty input sequence, `generate_embeddings_batch` returns
the empty sequence, issues zero provider calls, and emits zero per-batch
progress signals, whatever the batch size. -/
theorem generate_embeddings_batch_empty
    (embed : String → Except PyErr Vec) (bs : Nat) :
    (generate_embeddings_batch embed [] bs).result = Except.ok []
    ∧ (generate_embeddings_batch embed [] bs).calls = []
    ∧ (generate_embeddings_batch embed [] bs).progress = [] := by
  simp [generate_embeddings_batch, batches, runBatches]

/-- C8: construction of the embedding service fails hard — a fatal error,
no service value is produced — whenever the required API credential is
missing or invalid. -/
theorem embedding_service_init_fails_hard (apiKey : Option String)
    (credentialValid : String → Bool)
    (hbad : apiKey = none
      ∨ ∃ k, apiKey = some k ∧ credentialValid k = false) :
    (∃ e, embeddingServiceInit apiKey credentialValid = Except.error e)
    ∧ ∀ svc, embeddingServiceInit apiKey credentialValid ≠ Except.ok svc := by
  have hmain : ∃ e, embeddingServiceInit apiKey credentialValid
      = Except.error e := by
    rcases hbad with rfl | ⟨k, rfl, hk⟩
    · exact ⟨InitError.missingCredential, rfl⟩
    · exact ⟨InitError.invalidCredential, by simp [embeddingServiceInit, hk]⟩
  obtain ⟨e, he⟩ := hmain
  exact ⟨⟨e, he⟩, fun svc h => Except.noConfusion (he ▸ h)⟩

/-- Witness for C8: a missing credential is a fatal construction error. -/
theorem embedding_service_init_fails_hard_witness :
    ((none : Option String) = none
      ∨ ∃ k, (none : Option String) = some k ∧ (fun _ => true) k = false)
    ∧ ((∃ e, embeddingServiceInit none (fun _ => true) = Except.error e)
      ∧ ∀ svc, embeddingServiceInit none (fun _ => true) ≠ Except.ok svc) :=
  ⟨Or.inl rfl, embedding_service_init_fails_hard none (fun _ => true) (Or.inl rfl)⟩

end Embeddings

/-! ## Claim theorems: session manager -/

namespace DbCli

theorem disconnectedState_disconnect (s : CLIState) :
    disconnectedState (disconnect s) = true := by
  cases h : s.conn <;> simp [disconnect, disconnectedState, h]

theorem run_interactive_cases (drv : Driver) (events : List InEvent)
    (s : CLIState) :
    (run_interactive drv events s).1 = LoopOutcome.connectFailed
    ∨ (run_interactive drv events s).1 = LoopOutcome.hung
    ∨ ((run_interactive drv events s).2.2 = 1
        ∧ disconnectedState (run_interactive drv events s).2.1 = true) := by
  unfold run_interactive
  rcases connect drv s with ⟨b, s1⟩
  cases b
  · exact Or.inl rfl
  · dsimp only
    cases hl : loop drv s1 events
    case hung => exact Or.inr (Or.inl rfl)
    all_goals
      exact Or.inr (Or.inr ⟨rfl, disconnectedState_disconnect s1⟩)

/-- C3: whenever a `run_interactive` invocation terminates after entering
the read-eval loop (so on every exit path of the loop: meta-command exit,
interrupt, or a fatal error propagating out of the loop body), the
`finally` block runs `disconnect` exactly once, and the state after
`run_interactive` returns is Disconnected: no live (open) connection
remains. (The stored handle object itself is not cleared; see the
`disconnect` theorems.) -/
theorem run_interactive_releases (drv : Driver) (events : List InEvent)
    (s : CLIState)
    (hterm : (run_interactive drv events s).1 ≠ LoopOutcome.hung)
    (hentered : (run_interactive drv events s).1 ≠ LoopOutcome.connectFailed) :
    (run_interactive drv events s).2.2 = 1
    ∧ disconnectedState (run_interactive drv events s).2.1 = true := by
  rcases run_interactive_cases drv events s with h | h | h
  · exact absurd h hentered
  · exact absurd h hterm
  · exact h

/-- Witness for C3: a session ended by the `.exit` meta-command runs
`disconnect` exactly once and ends with no live connection. -/
theorem run_interactive_releases_witness :
    ((run_interactive drvOk [InEvent.line ".exit"]
        (initState (some "postgres://u"))).1 ≠ LoopOutcome.hung)
    ∧ ((run_interactive drvOk [InEvent.line ".exit"]
        (initState (some "postgres://u"))).1 ≠ LoopOutcome.connectFailed)
    ∧ ((run_interactive drvOk [InEvent.line ".exit"]
          (initState (some "postgres://u"))).2.2 = 1
      ∧ disconnectedState (run_interactive drvOk [InEvent.line ".exit"]
          (initState (some "postgres://u"))).2.1 = true) := by
  refine ⟨by decide, by decide, ?_⟩
  exact run_interactive_releases drvOk [InEvent.line ".exit"]
    (initState (some "postgres://u")) (by decide) (by decide)

end DbCli

namespace DbCli

/-- C2: on a connected session, `execute_query` routes every query whose
stripped, uppercased text starts with "SELECT" to the read path (an eager
fetch whose rows are reported, the empty row set being a valid non-error
outcome), and every other string — empty after stripping, DDL, DML,
multi-statement text — to the write path (execute, reporting the
driver-provided status verbatim); in both cases a driver exception
becomes a reported per-query failure. -/
theorem execute_query_routing (drv : Driver) (s : CLIState) (h : Handle)
    (q : String) (hc : s.conn = some h) :
    (isSelectQuery q = true →
      execute_query drv s q
        = Except.ok (match drv.fetch h q with
            | Except.ok rows => QueryOutput.readOk rows
            | Except.error e => QueryOutput.queryFailed e))
    ∧ (isSelectQuery q = false →
      execute_query drv s q
        = Except.ok (match drv.execute h q with
            | Except.ok st => QueryOutput.writeOk st
            | Except.error e => QueryOutput.queryFailed e)) := by
  constructor
  · intro hsel
    simp only [execute_query, hc, hsel, if_true]
    cases hf : drv.fetch h q <;> simp [pyCatchQuery, Except.map]
  · intro hsel
    simp only [execute_query, hc, hsel, Bool.false_eq_true, if_false]
    cases hf : drv.execute h q <;> simp [pyCatchQuery, Except.map]

/-- Witness for C2: a lowercase `select` goes to the read path and the
driver's rows come back; the state is a connected session. -/
theorem execute_query_routing_witness :
    connectedState.conn = some { isOpen := true }
    ∧ isSelectQuery "select 1" = true
    ∧ execute_query drvOk connectedState "select 1"
      = Except.ok (QueryOutput.readOk [[("col", "1")]]) := by
  refine ⟨rfl, by decide, ?_⟩
  have h := (execute_query_routing drvOk connectedState
    { isOpen := true } "select 1" rfl).1 (by decide)
  simpa [drvOk] using h

/-- C4 counterexample: the claim says `disconnect` "closes the handle and
clears it"; on a connected state the code closes the handle but leaves it
stored in `self.conn` (there is no `self.conn = None`), so the handle is
not cleared. -/
theorem disconnect_does_not_clear :
    (disconnect connectedState).conn ≠ none := by
  decide

/-- C4 (amended): `disconnect` is a no-op when no connection handle is
stored; when a handle is stored it closes the handle but leaves the
closed handle stored (it does not clear `self.conn`). Calling it twice in
a row produces no error (closing an already-closed handle is a no-op),
is idempotent on the state, and leaves no live connection both times. -/
theorem disconnect_idempotent (s : CLIState) :
    (s.conn = none → disconnect s = s)
    ∧ disconnectedState (disconnect s) = true
    ∧ disconnect (disconnect s) = disconnect s
    ∧ disconnectedState (disconnect (disconnect s)) = true := by
  refine ⟨fun h => by simp [disconnect, h], disconnectedState_disconnect s,
    ?_, disconnectedState_disconnect _⟩
  cases h : s.conn <;> simp [disconnect, h]

/-- Witness for C4 (amended): a connected state, disconnected twice. -/
theorem disconnect_idempotent_witness :
    (connectedState.conn = none → disconnect connectedState = connectedState)
    ∧ disconnectedState (disconnect connectedState) = true
    ∧ disconnect (disconnect connectedState) = disconnect connectedState
    ∧ disconnectedState (disconnect (disconnect connectedState)) = true :=
  disconnect_idempotent connectedState

/-- C6: `execute_query` never raises: when no Connection is stored the
precondition failure is reported (not raised), and for every query and
every driver behaviour the read or write path's failure is caught and
reported as a non-fatal per-query outcome, so the call always returns
normally. -/
theorem execute_query_no_raise (drv : Driver) (s : CLIState) (q : String) :
    (∃ out, execute_query drv s q = Except.ok out)
    ∧ (s.conn = none →
        execute_query drv s q = Except.ok QueryOutput.notConnected) := by
  constructor
  · cases hc : s.conn with
    | none => exact ⟨QueryOutput.notConnected, by simp [execute_query, hc]⟩
    | some h =>
        simp only [execute_query, hc]
        cases hsel : isSelectQuery q
        · simp only [Bool.false_eq_true, if_false]
          cases hx : drv.execute h q <;>
            simp [pyCatchQuery, Except.map]
        · simp only [if_true]
          cases hx : drv.fetch h q <;>
            simp [pyCatchQuery, Except.map]
  · intro hc
    simp [execute_query, hc]

/-- Witness for C6: with no stored connection, a write statement against
a dead driver is still reported, not raised. -/
theorem execute_query_no_raise_witness :
    (∃ out, execute_query drvDown (initState (some "postgres://u"))
        "DROP TABLE users" = Except.ok out)
    ∧ execute_query drvDown (initState (some "postgres://u"))
        "DROP TABLE users" = Except.ok QueryOutput.notConnected := by
  have h := execute_query_no_raise drvDown (initState (some "postgres://u"))
    "DROP TABLE users"
  exact ⟨h.1, h.2 rfl⟩

/-- C7: starting from a Disconnected state, `connect` returns `False`
with no exception escaping whenever the connection string is absent or
empty or the underlying connect attempt raises, and in both failure cases
no live handle is stored (the state remains Disconnected); on success it
stores the live handle and returns `True`. -/
theorem connect_contract (drv : Driver) (s : CLIState)
    (hd : s.conn = none) :
    ((s.db_url = none ∨ s.db_url = some "") →
      (connect drv s).1 = false ∧ (connect drv s).2.conn = none)
    ∧ (∀ e, drv.connectResult = Except.error e →
      (connect drv s).1 = false ∧ (connect drv s).2.conn = none)
    ∧ (∀ h, drv.connectResult = Except.ok h →
        ∀ u, s.db_url = some u → u ≠ "" →
      (connect drv s).1 = true ∧ (connect drv s).2.conn = some h) := by
  refine ⟨?_, ?_, ?_⟩
  · rintro (hu | hu) <;> simp [connect, hu, hd]
  · intro e he
    cases hu : s.db_url with
    | none => simp [connect, hu, hd]
    | some u =>
        by_cases h0 : u = "" <;> simp [connect, hu, h0, he, hd]
  · intro h hh u hu h0
    simp [connect, hu, h0, hh]

/-- Witness for C7: an absent connection string makes `connect` return
`False` and leaves no handle stored. -/
theorem connect_contract_witness :
    (connect drvDown (initState none)).1 = false
    ∧ (connect drvDown (initState none)).2.conn = none :=
  (connect_contract drvDown (initState none) rfl).1 (Or.inl rfl)

/-- C9 counterexample: the claim says a one-shot invocation whose connect
fails exits nonzero; in the code `main` never calls `sys.exit`, so a
one-shot invocation with a failing connect exits with status 0. -/
theorem main_oneshot_failure_exits_zero :
    oneShot { query := some "SELECT 1", interactive := false } = true
    ∧ (connect drvDown (initState (some "postgres://u"))).1 = false
    ∧ (mainRun { query := some "SELECT 1", interactive := false }
        (some "postgres://u") drvDown []).exitCode = 0 := by
  decide

/-- C9 (amended): no connect or query failure is reflected in the process
exit status in any mode: a one-shot invocation exits 0 whether its
connect or query execution fails or succeeds, and an interactive run
exits 0 unless a fatal non-`Exception` error propagates out of the loop
(the interpreter's exit 1). -/
theorem main_exit_zero (args : Args) (url : Option String) (drv : Driver)
    (events : List InEvent)
    (hnofatal : ∀ out, (mainRun args url drv events).outcome = some out →
        out ≠ LoopOutcome.fatalErr) :
    (mainRun args url drv events).exitCode = 0 := by
  by_cases hb : (args.interactive || !pyTruthy args.query) = true
  · simp only [mainRun, hb, if_true] at hnofatal ⊢
    have h := hnofatal _ rfl
    simp [h]
  · simp only [Bool.not_eq_true] at hb
    simp only [mainRun, hb, Bool.false_eq_true, if_false] at hnofatal ⊢
    rcases connect drv (initState url) with ⟨b, s1⟩
    cases b
    · rfl
    · rfl

/-- Witness for C9 (amended): a failing one-shot invocation exits 0. -/
theorem main_exit_zero_witness :
    (∀ out, (mainRun { query := some "SELECT 1", interactive := false }
        (some "postgres://u") drvDown []).outcome = some out →
      out ≠ LoopOutcome.fatalErr)
    ∧ (mainRun { query := some "SELECT 1", interactive := false }
        (some "postgres://u") drvDown []).exitCode = 0 := by
  have hz : (mainRun { query := some "SELECT 1", interactive := false }
      (some "postgres://u") drvDown []).outcome = none := by decide
  have hno : ∀ out, (mainRun { query := some "SELECT 1", interactive := false }
      (some "postgres://u") drvDown []).outcome = some out →
        out ≠ LoopOutcome.fatalErr := by
    intro out hout
    rw [hz] at hout
    exact Option.noConfusion hout
  exact ⟨hno, main_exit_zero _ _ _ _ hno⟩

end DbCli
